import Mathlib

/-!
Shallow embedding of the `text-to-json-mcp` core
(`src/utils/gapAnalysis.js` and `src/utils/promptProcessor.js`).

Strings are modelled as lists of characters (`Str`); every JavaScript
string operation used by the source (`toLowerCase`, `includes`, `split`,
`trim`, `startsWith`, `match`, `matchAll`, `replace`) is given an
explicit executable translation.  JavaScript numbers appearing here are
always integers (score arithmetic, elapsed milliseconds), so they are
modelled as `Int`/`Nat`; `Math.round` is the identity on them.
Recursions that consume more than one character per step take an
explicit fuel argument (always instantiated with the string length,
which is a strict upper bound on the number of steps) so that every
definition reduces inside the kernel.
-/

/-- Strings as lists of characters. -/
abbrev Str := List Char

/-- Coerce a Lean string literal to the character-list model. -/
def str (s : String) : Str := s.data

/-- JavaScript `String.prototype.toLowerCase` (ASCII case mapping,
which is all the fixed indicator tables require). -/
def lowerStr (l : Str) : Str := l.map Char.toLower

/-- Character class of JavaScript `\s` (ASCII part) — also the
characters removed by `String.prototype.trim`. -/
def jsIsSpace (c : Char) : Bool :=
  c == ' ' || c == '\t' || c == '\n' || c == '\r' || c == '\x0b' || c == '\x0c'

/-- Character class of JavaScript `\w`: `[A-Za-z0-9_]`. -/
def isWordChar (c : Char) : Bool :=
  ('a' ≤ c && c ≤ 'z') || ('A' ≤ c && c ≤ 'Z') || ('0' ≤ c && c ≤ '9') || c == '_'

/-- JavaScript `String.prototype.trim`. -/
def trimStr (l : Str) : Str :=
  ((l.dropWhile jsIsSpace).reverse.dropWhile jsIsSpace).reverse

/-- `pat` is a literal prefix of `l` (char-by-char comparison). -/
def strHasPrefix : Str → Str → Bool
  | [], _ => true
  | _ :: _, [] => false
  | p :: ps, c :: cs => p == c && strHasPrefix ps cs

/-- JavaScript `big.includes(sub)`: `sub` occurs contiguously in `big`. -/
def strContains (big sub : Str) : Bool :=
  strHasPrefix sub big ||
    match big with
    | [] => false
    | _ :: cs => strContains cs sub

/-- `big.toLowerCase().includes(sub.toLowerCase())` — the test used by
every indicator table. -/
def ciIncludes (big sub : Str) : Bool := strContains (lowerStr big) (lowerStr sub)

/-- `big.toLowerCase().startsWith(pat.toLowerCase())`. -/
def ciStartsWith (big pat : Str) : Bool := strHasPrefix (lowerStr pat) (lowerStr big)

/-- JavaScript `text.split(/[.!?]+/)` and `text.split(/\s+/)`:
split on maximal nonempty runs of delimiter characters.  A leading
(resp. trailing) delimiter run contributes a leading (resp. trailing)
empty piece, and the empty string splits to `[""]`, exactly as in JS. -/
def splitRuns (p : Char → Bool) : Str → List Str
  | [] => [[]]
  | c :: cs =>
    let r := splitRuns p cs
    if p c then
      match cs with
      | [] => [] :: r
      | d :: _ => if p d then r else [] :: r
    else
      match r with
      | [] => [[c]]
      | h :: t => (c :: h) :: t

/-- Fuelled worker for JavaScript `text.split(sep)` with a nonempty
plain-string separator: case-sensitive, leftmost, non-overlapping
occurrences.  Fuel bounds the number of characters consumed. -/
def splitOnStrAux (sep : Str) : Nat → Str → List Str
  | _, [] => [[]]
  | 0, l => [l]
  | fuel + 1, c :: cs =>
    if sep ≠ [] ∧ strHasPrefix sep (c :: cs) then
      [] :: splitOnStrAux sep fuel ((c :: cs).drop sep.length)
    else
      match splitOnStrAux sep fuel cs with
      | [] => [[c]]
      | h :: t => (c :: h) :: t

/-- JavaScript `text.split(sep)` (the source only calls it with the
nonempty indicator strings). -/
def splitOnStr (sep l : Str) : List Str := splitOnStrAux sep l.length l

/-- `isSentenceDelim c` holds on the sentence separators `.`, `!`, `?`. -/
def isSentenceDelim (c : Char) : Bool := c == '.' || c == '!' || c == '?'

/-- `text.split(/[.!?]+/).filter(s => s.trim().length > 0)` — the
sentence list used throughout both source files. -/
def sentencesOf (text : Str) : List Str :=
  (splitRuns isSentenceDelim text).filter (fun s => (trimStr s).length > 0)

/-- Decimal digit character, `Char.ofNat (48 + d)` for `d < 10`. -/
def digitChar (d : Nat) : Char := Char.ofNat (48 + d)

/-- Fuelled worker for decimal rendering; fuel bounds the number of
digits (the value itself is always enough fuel). -/
def natStrAux : Nat → Nat → Str → Str
  | 0, n, acc => digitChar (n % 10) :: acc
  | fuel + 1, n, acc =>
    if n < 10 then digitChar n :: acc
    else natStrAux fuel (n / 10) (digitChar (n % 10) :: acc)

/-- Decimal rendering of a natural number (JavaScript number-to-string
for the nonnegative integers interpolated into finding descriptions). -/
def natStr (n : Nat) : Str := natStrAux n n []

/-! ## `src/utils/gapAnalysis.js` -/

/-- A clarity-gap finding (`{category, description, suggestion, severity}`). -/
structure Finding where
  category : Str
  description : Str
  suggestion : Str
  severity : Str
deriving DecidableEq

/-- `CONTEXT_INDICATORS`. -/
def CONTEXT_INDICATORS : List Str :=
  [str "it", str "this", str "that", str "they", str "them", str "those",
   str "here", str "there",
   str "the system", str "the app", str "the website", str "the platform"]

/-- `AMBIGUITY_INDICATORS`. -/
def AMBIGUITY_INDICATORS : List Str :=
  [str "maybe", str "possibly", str "might", str "could", str "should", str "would",
   str "better", str "best", str "good", str "nice", str "pretty", str "cool",
   str "soon", str "quickly", str "fast", str "efficient", str "user-friendly"]

/-- `OUTPUT_INDICATORS`. -/
def OUTPUT_INDICATORS : List Str :=
  [str "something", str "stuff", str "things", str "data", str "information",
   str "report", str "summary", str "analysis", str "results"]

/-- `CONSTRAINT_INDICATORS`. -/
def CONSTRAINT_INDICATORS : List Str :=
  [str "any", str "all", str "every", str "always", str "never",
   str "unlimited", str "infinite", str "maximum", str "minimum"]

/-- The finding pushed by `findMissingContext` for indicator `ind` in the
0-based sentence `index` (the description shows the 1-based index). -/
def ctxFinding (ind : Str) (index : Nat) : Finding :=
  { category := str "missing_context"
    description :=
      str "Unclear reference to \"" ++ ind ++ str "\" in sentence " ++ natStr (index + 1)
    suggestion := str "Specify what \"" ++ ind ++ str "\" refers to"
    severity := str "medium" }

/-- `sentence.toLowerCase().includes(indicator.toLowerCase())` together
with `sentence.split(indicator)[0].trim().length < 10` — the exact push
condition of `findMissingContext` for one sentence and one indicator. -/
def ctxCondition (sentence ind : Str) : Bool :=
  ciIncludes sentence ind &&
    (trimStr ((splitOnStr ind sentence).headD [])).length < 10

/-- The findings `findMissingContext` pushes for one sentence. -/
def ctxPerSentence (index : Nat) (sentence : Str) : List Finding :=
  CONTEXT_INDICATORS.flatMap fun ind =>
    if ctxCondition sentence ind then [ctxFinding ind index] else []

/-- Indexed traversal of the sentence list (the `forEach` of
`findMissingContext`). -/
def ctxScan (index : Nat) : List Str → List Finding
  | [] => []
  | s :: rest => ctxPerSentence index s ++ ctxScan (index + 1) rest

/-- `findMissingContext(text)`. -/
def findMissingContext (text : Str) : List Finding :=
  ctxScan 0 (sentencesOf text)

/-- The finding pushed by `findAmbiguousRequirements` for indicator `ind`. -/
def ambigFinding (ind : Str) : Finding :=
  { category := str "ambiguous_requirement"
    description := str "Vague requirement: \"" ++ ind ++ str "\""
    suggestion := str "Replace \"" ++ ind ++ str "\" with specific, measurable criteria"
    severity := str "high" }

/-- `findAmbiguousRequirements(text)`. -/
def findAmbiguousRequirements (text : Str) : List Finding :=
  AMBIGUITY_INDICATORS.flatMap fun ind =>
    if ciIncludes text ind then [ambigFinding ind] else []

/-- The finding pushed by `findUnclearOutputs` for indicator `ind`. -/
def outputFinding (ind : Str) : Finding :=
  { category := str "unclear_output"
    description := str "Unclear output: \"" ++ ind ++ str "\""
    suggestion :=
      str "Specify the exact format, structure, and content of the \"" ++ ind ++ str "\""
    severity := str "medium" }

/-- `findUnclearOutputs(text)`. -/
def findUnclearOutputs (text : Str) : List Finding :=
  OUTPUT_INDICATORS.flatMap fun ind =>
    if ciIncludes text ind then [outputFinding ind] else []

/-- The finding pushed by `findMissingConstraints` for indicator `ind`. -/
def constraintFinding (ind : Str) : Finding :=
  { category := str "missing_constraints"
    description := str "Missing constraint: \"" ++ ind ++ str "\""
    suggestion :=
      str "Specify limits, boundaries, or specific criteria for \"" ++ ind ++ str "\""
    severity := str "medium" }

/-- `findMissingConstraints(text)`. -/
def findMissingConstraints (text : Str) : List Finding :=
  CONSTRAINT_INDICATORS.flatMap fun ind =>
    if ciIncludes text ind then [constraintFinding ind] else []

/-- `calculateClarityScore(text, gaps)`: sequential score updates, then
`Math.max(0, Math.min(100, Math.round(score)))` (`Math.round` is the
identity here since every operand is an integer). -/
def calculateClarityScore (text : Str) (gaps : List Finding) : Int :=
  let baseScore : Int := 100
  let score1 : Int := baseScore - gaps.length * 15
  let highSeverityGaps := gaps.filter fun gap => gap.severity == str "high"
  let score2 : Int := score1 - highSeverityGaps.length * 10
  let wordCount := (splitRuns jsIsSpace text).length
  let score3 : Int := if wordCount > 20 then score2 + 5 else score2
  let score4 : Int := if wordCount > 50 then score3 + 10 else score3
  max 0 (min 100 score4)

/-- The JS dedup `gaps.filter((gap, index, self) => index ===
self.findIndex(g => g.description === gap.description))`, written as a
recursion over the list carrying the current index. -/
def uniqueAux (self : List Finding) (i : Nat) : List Finding → List Finding
  | [] => []
  | g :: rest =>
    if self.findIdx (fun h => h.description == g.description) = i then
      g :: uniqueAux self (i + 1) rest
    else
      uniqueAux self (i + 1) rest

/-- Deduplicate findings by exact description, keeping first occurrences. -/
def dedupGaps (l : List Finding) : List Finding := uniqueAux l 0 l

/-- Result record of `analyzeTextForGaps`. -/
structure GapAnalysis where
  gaps : List Finding
  overall_clarity_score : Int
deriving DecidableEq

/-- The concatenation of the four detection rules, in source order. -/
def allGaps (text : Str) : List Finding :=
  findMissingContext text ++ findAmbiguousRequirements text ++
    findUnclearOutputs text ++ findMissingConstraints text

/-- `analyzeTextForGaps(text)`. -/
def analyzeTextForGaps (text : Str) : GapAnalysis :=
  let gaps := allGaps text
  let uniqueGaps := dedupGaps gaps
  let clarityScore := calculateClarityScore text uniqueGaps
  { gaps := uniqueGaps, overall_clarity_score := clarityScore }

/-! ## `src/utils/promptProcessor.js` -/

/-- `actionVerbs` of `extractTask`. -/
def actionVerbs : List Str :=
  [str "generate", str "create", str "build", str "make", str "develop",
   str "design", str "implement", str "write", str "produce", str "construct",
   str "assemble", str "compile", str "organize"]

/-- The message of the `TypeError` raised by `sentences[0].trim()` when
the sentence list is empty (`sentences[0]` is `undefined`). -/
def undefinedTrimMsg : Str := str "Cannot read properties of undefined (reading 'trim')"

/-- `extractTask(text)`.  Accessing `sentences[0]` on an empty sentence
list raises, which the embedding models with `Except.error`; both the
action-verb branch and the fallback return the same trimmed first
sentence, mirrored literally. -/
def extractTask (text : Str) : Except Str Str :=
  match sentencesOf text with
  | [] => Except.error undefinedTrimMsg
  | s :: _ =>
    let firstSentence := trimStr s
    if actionVerbs.any (fun verb => ciStartsWith firstSentence verb) then
      Except.ok firstSentence
    else
      Except.ok firstSentence

/-- `intentIndicators` of `extractIntent`. -/
def intentIndicators : List Str :=
  [str "to", str "for", str "so that", str "in order to", str "because",
   str "since", str "as", str "while", str "when", str "if", str "although"]

/-- Inner indicator loop of `extractIntent`: first indicator contained
case-insensitively whose case-sensitive split yields a second part. -/
def intentFromSentence (sentence : Str) : List Str → Option Str
  | [] => none
  | ind :: rest =>
    if ciIncludes sentence ind then
      match splitOnStr ind sentence with
      | _ :: part1 :: _ => some (trimStr part1)
      | _ => intentFromSentence sentence rest
    else
      intentFromSentence sentence rest

/-- Outer sentence loop of `extractIntent`. -/
def intentScan : List Str → Option Str
  | [] => none
  | s :: rest =>
    match intentFromSentence s intentIndicators with
    | some r => some r
    | none => intentScan rest

/-- `extractIntent(text)`. -/
def extractIntent (text : Str) : Str :=
  match intentScan (sentencesOf text) with
  | some r => r
  | none => str "To fulfill the specified requirements and deliver the requested output"

/-- First match of `/(\w+)\s+lit/i` against the suffix starting here:
greedy `\w+` run, then a nonempty whitespace run, then the literal
case-insensitively.  Returns the captured word. -/
def capBeforeAt (lit l : Str) : Option Str :=
  let w := l.takeWhile isWordChar
  if w.isEmpty then none
  else
    let r1 := l.drop w.length
    let sp := r1.takeWhile jsIsSpace
    if sp.isEmpty then none
    else if ciStartsWith (r1.drop sp.length) lit then some w
    else none

/-- `text.match(/(\w+)\s+lit/i)?.[1]`: leftmost match, first capture. -/
def firstCapBefore (lit : Str) : Str → Option Str
  | [] => none
  | l@(_ :: cs) =>
    match capBeforeAt lit l with
    | some w => some w
    | none => firstCapBefore lit cs

/-- `dataPatterns` literals of `extractRequiredInputs`. -/
def dataPatternLits : List Str :=
  [str "data", str "information", str "details", str "specifications"]

/-- `paramPatterns` literals of `extractRequiredInputs`. -/
def paramPatternLits : List Str :=
  [str "parameters", str "criteria", str "requirements"]

/-- `extractRequiredInputs(text)`. -/
def extractRequiredInputs (text : Str) : List Str :=
  let fromData := dataPatternLits.filterMap fun lit =>
    (firstCapBefore lit text).map fun w => w ++ str " data/information"
  let fromParams := paramPatternLits.filterMap fun lit =>
    (firstCapBefore lit text).map fun w => w ++ str " parameters/criteria"
  let required := fromData ++ fromParams
  if required.isEmpty then
    [str "Input text or prompt", str "Context or background information"]
  else
    required

/-- Match of `/lit\s+(\w+)/i` at the current position: the literal
case-insensitively, a nonempty whitespace run, then a captured `\w+`
run.  Returns total matched length and the capture. -/
def litSpWordAt (lit l : Str) : Option (Nat × Str) :=
  if ciStartsWith l lit then
    let r1 := l.drop lit.length
    let sp := r1.takeWhile jsIsSpace
    if sp.isEmpty then none
    else
      let r2 := r1.drop sp.length
      let w := r2.takeWhile isWordChar
      if w.isEmpty then none
      else some (lit.length + sp.length + w.length, w)
  else none

/-- Match of `/if\s+available\s+(\w+)/i` at the current position. -/
def ifAvailableAt (l : Str) : Option (Nat × Str) :=
  if ciStartsWith l (str "if") then
    let r1 := l.drop 2
    let sp1 := r1.takeWhile jsIsSpace
    if sp1.isEmpty then none
    else
      let r2 := r1.drop sp1.length
      if ciStartsWith r2 (str "available") then
        let r3 := r2.drop 9
        let sp2 := r3.takeWhile jsIsSpace
        if sp2.isEmpty then none
        else
          let r4 := r3.drop sp2.length
          let w := r4.takeWhile isWordChar
          if w.isEmpty then none
          else some (2 + sp1.length + 9 + sp2.length + w.length, w)
      else none
  else none

/-- Match of `/(\w+)\s+lit/i` at the current position, returning total
matched length and the captured word (used for `(\w+)\s+\(optional\)`). -/
def wordSpLitAt (lit l : Str) : Option (Nat × Str) :=
  let w := l.takeWhile isWordChar
  if w.isEmpty then none
  else
    let r1 := l.drop w.length
    let sp := r1.takeWhile jsIsSpace
    if sp.isEmpty then none
    else if ciStartsWith (r1.drop sp.length) lit then
      some (w.length + sp.length + lit.length, w)
    else none

/-- `text.matchAll(pattern)` for a matcher `tryAt`: scan left to right,
emit each capture, continue after the end of each match (all matches
here consume at least one character).  Fuel bounds the scan length. -/
def matchAllAux (tryAt : Str → Option (Nat × Str)) : Nat → Str → List Str
  | _, [] => []
  | 0, _ => []
  | fuel + 1, l@(_ :: cs) =>
    match tryAt l with
    | some (len, w) =>
      if len = 0 then w :: matchAllAux tryAt fuel cs
      else w :: matchAllAux tryAt fuel (l.drop len)
    | none => matchAllAux tryAt fuel cs

/-- All captures of a global regex over `l`. -/
def matchAll (tryAt : Str → Option (Nat × Str)) (l : Str) : List Str :=
  matchAllAux tryAt l.length l

/-- `extractOptionalInputs(text)`. -/
def extractOptionalInputs (text : Str) : List Str :=
  let m1 := matchAll (litSpWordAt (str "optional")) text
  let m2 := matchAll ifAvailableAt text
  let m3 := matchAll (wordSpLitAt (str "(optional)")) text
  m1 ++ m2 ++ m3 ++ [str "Additional context", str "Preferences or style guidelines"]

/-- `constraintPatterns` literals of `extractConstraints`. -/
def constraintPatternLits : List Str :=
  [str "within", str "limit", str "maximum", str "minimum",
   str "only", str "must", str "should"]

/-- `extractConstraints(text)`: for each pattern and each of its
matches, push `pattern.source` with parentheses stripped (`lit\s+\w+`)
followed by a space and the capture; then the two fixed strings. -/
def extractConstraints (text : Str) : List Str :=
  let fromPatterns := constraintPatternLits.flatMap fun lit =>
    (matchAll (litSpWordAt lit) text).map fun w =>
      lit ++ str "\\s+\\w+ " ++ w
  fromPatterns ++ [str "Available time and resources", str "Technical limitations"]

/-- The `outputs` record of `extractOutputs`. -/
structure Outputs where
  primary : Str
  secondary : List Str
  format : Str
deriving DecidableEq

/-- `formatPatterns` literals of `extractOutputs`. -/
def formatPatternLits : List Str :=
  [str "format", str "file", str "output"]

/-- `outputTypes` of `extractOutputs`. -/
def outputTypes : List Str :=
  [str "report", str "summary", str "analysis", str "list", str "catalog",
   str "database", str "dashboard", str "interface", str "document",
   str "presentation"]

/-- `type.charAt(0).toUpperCase() + type.slice(1)`. -/
def capitalize : Str → Str
  | [] => []
  | c :: cs => c.toUpper :: cs

/-- `extractOutputs(text)`: the format starts at `"JSON"` and each of
the three patterns overwrites it in turn when it matches; the primary
output is the first contained output type, capitalized. -/
def extractOutputs (text : Str) : Outputs :=
  let format := formatPatternLits.foldl
    (fun acc lit =>
      match firstCapBefore lit text with
      | some w => w
      | none => acc)
    (str "JSON")
  let primary :=
    match outputTypes.find? (fun t => ciIncludes text t) with
    | some t => capitalize t
    | none => str "Structured data or information"
  { primary := primary
    secondary := [str "Documentation or instructions", str "Quality assurance metrics"]
    format := format }

/-- The `inputs` sub-record of a `PromptRecord`. -/
structure Inputs where
  required : List Str
  optional : List Str
  constraints : List Str
deriving DecidableEq

/-- The `data` record assembled by `convertPromptToJson`. -/
structure PromptRecord where
  task : Str
  intent : Str
  inputs : Inputs
  outputs : Outputs
  clarity_gaps : List Str
deriving DecidableEq

/-- Result of `convertPromptToJson`: the `try` branch or the `catch`
branch, each carrying `processing_time_ms`. -/
inductive ConvertResult where
  | success (data : PromptRecord) (processing_time_ms : Int)
  | failure (error : Str) (processing_time_ms : Int)
deriving DecidableEq

/-- The `data` field (`none` on the failure branch). -/
def ConvertResult.dataOf : ConvertResult → Option PromptRecord
  | .success d _ => some d
  | .failure _ _ => none

/-- The `error` field (`none` on the success branch). -/
def ConvertResult.errorOf : ConvertResult → Option Str
  | .success _ _ => none
  | .failure e _ => some e

/-- The `processing_time_ms` field. -/
def ConvertResult.timeOf : ConvertResult → Int
  | .success _ t => t
  | .failure _ t => t

/-- The extraction block inside the `try` of `convertPromptToJson`.
Only `extractTask` can raise (empty sentence list); every other
sub-extraction is a total string computation. -/
def extractAll (text : Str) : Except Str PromptRecord :=
  match extractTask text with
  | Except.error e => Except.error e
  | Except.ok task =>
    Except.ok
      { task := task
        intent := extractIntent text
        inputs :=
          { required := extractRequiredInputs text
            optional := extractOptionalInputs text
            constraints := extractConstraints text }
        outputs := extractOutputs text
        clarity_gaps := (analyzeTextForGaps text).gaps.map (·.description) }

/-- `convertPromptToJson(text)`.  The two reads of `Date.now()` are
modelled as explicit clock values `t0` (at entry) and `t1` (at return);
`processing_time_ms = t1 - t0` on both branches. -/
def convertPromptToJson (text : Str) (t0 t1 : Int) : ConvertResult :=
  match extractAll text with
  | Except.ok data => ConvertResult.success data (t1 - t0)
  | Except.error e => ConvertResult.failure e (t1 - t0)

/-- The six alternatives of the replacement regex
`/\b(good|better|best|nice|pretty|cool)\b/gi`, in source order. -/
def replaceWords : List Str :=
  [str "good", str "better", str "best", str "nice", str "pretty", str "cool"]

/-- Case-insensitive match of one alternative at the current position,
including the trailing `\b` (next character, if any, is not a word
character).  Returns the matched length. -/
def replaceWordAt (l : Str) : Option Nat :=
  match replaceWords.find? (fun w =>
      strHasPrefix (lowerStr w) (lowerStr l) &&
        (match l.drop w.length with
         | [] => true
         | d :: _ => !isWordChar d)) with
  | some w => some w.length
  | none => none

/-- `text.replace(/\b(good|better|best|nice|pretty|cool)\b/gi,
'specific and measurable')`: scan with a leading word-boundary flag,
replacing each match globally.  Fuel bounds the scan length. -/
def replaceAmbigAux : Nat → Bool → Str → Str
  | _, _, [] => []
  | 0, _, l => l
  | fuel + 1, prevIsWord, l@(c :: cs) =>
    if prevIsWord then
      c :: replaceAmbigAux fuel (isWordChar c) cs
    else
      match replaceWordAt l with
      | some len =>
        str "specific and measurable" ++
          replaceAmbigAux fuel true (l.drop len)
      | none => c :: replaceAmbigAux fuel (isWordChar c) cs

/-- The global vague-adjective replacement of `refinePrompt`. -/
def replaceAmbig (l : Str) : Str := replaceAmbigAux l.length false l

/-- An `improvements` entry of `refinePrompt`. -/
structure Improvement where
  type : Str
  description : Str
  before : Str
  after : Str
deriving DecidableEq

/-- Result record of `refinePrompt` (`success` is always `true`). -/
structure RefineResult where
  success : Bool
  original_prompt : Str
  refined_prompt : Str
  improvements : List Improvement
deriving DecidableEq

/-- `refinePrompt(text)`: four gated transformations in fixed order,
each operating on the current text and appending one improvement. -/
def refinePrompt (text : Str) : RefineResult :=
  let gapAnalysis := analyzeTextForGaps text
  let b1 := gapAnalysis.gaps.any fun gap => gap.category == str "missing_context"
  let s1 : Str × List Improvement :=
    if b1 then
      let after := str "Context: This request is for [specify context]. " ++ text
      (after, [{ type := str "clarity", description := str "Added context section",
                 before := text, after := after }])
    else (text, [])
  let b2 := gapAnalysis.gaps.any fun gap => gap.category == str "ambiguous_requirement"
  let s2 : Str × List Improvement :=
    if b2 then
      let after := replaceAmbig s1.1
      (after, [{ type := str "specificity",
                 description := str "Replaced subjective terms with objective criteria",
                 before := s1.1, after := after }])
    else (s1.1, [])
  let b3 := gapAnalysis.gaps.any fun gap => gap.category == str "unclear_output"
  let s3 : Str × List Improvement :=
    if b3 then
      let after := s2.1 ++
        str " The output should be in [specific format] with [specific structure] and include [specific content]."
      (after, [{ type := str "structure",
                 description := str "Added specific output requirements",
                 before := s2.1, after := after }])
    else (s2.1, [])
  let b4 := gapAnalysis.gaps.any fun gap => gap.category == str "missing_constraints"
  let s4 : Str × List Improvement :=
    if b4 then
      let after := s3.1 ++
        str " Constraints: [specify time limits, resource constraints, technical limitations]."
      (after, [{ type := str "completeness",
                 description := str "Added constraints section",
                 before := s3.1, after := after }])
    else (s3.1, [])
  { success := true
    original_prompt := text
    refined_prompt := s4.1
    improvements := s1.2 ++ s2.2 ++ s3.2 ++ s4.2 }

/-! ## Auxiliary and spec-side definitions used by the theorems -/

/-- Decimal parser (left fold), inverse to `natStrAux`. -/
def parseDecAux : Nat → Str → Nat
  | a, [] => a
  | a, c :: cs => parseDecAux (a * 10 + (c.toNat - 48)) cs

/-- The four gap categories, in the order the refinement steps test
them. -/
def gapCategories : List Str :=
  [str "missing_context", str "ambiguous_requirement",
   str "unclear_output", str "missing_constraints"]

/-- The distinct gap categories present in a finding list. -/
def presentCategories (gaps : List Finding) : List Str :=
  gapCategories.filter fun c => gaps.any fun gap => gap.category == c

/-- Reading of the claim's words for C1: a "whitespace-delimited token"
is a nonempty maximal run of non-whitespace characters. -/
def specTokenCount (text : Str) : Nat :=
  ((splitRuns jsIsSpace text).filter fun w => !w.isEmpty).length

/-- Reading of the claim's words for C1: the clarity-score formula with
the length bonuses keyed to the whitespace-delimited token count. -/
def specClarityScore (text : Str) (gaps : List Finding) : Int :=
  max 0 (min 100
    (100 - 15 * (gaps.length : Int)
       - 10 * ((gaps.filter fun g => g.severity == str "high").length : Int)
       + (if specTokenCount text > 20 then 5 else 0)
       + (if specTokenCount text > 50 then 10 else 0)))

/-- Reading of the claim's words for C2: the prefix of the sentence
strictly before the indicator's first case-insensitive occurrence. -/
def ciPrefixBefore (ind : Str) : Str → Str
  | [] => []
  | c :: cs =>
    if strHasPrefix (lowerStr ind) (lowerStr (c :: cs)) then []
    else c :: ciPrefixBefore ind cs

/-- Reading of the claim's words for C2: a `missing_context` finding is
emitted iff the sentence contains the indicator case-insensitively and
the substring before its first (case-insensitive) occurrence is shorter
than 10 characters. -/
def specCtxEmits (sentence ind : Str) : Bool :=
  ciIncludes sentence ind && (ciPrefixBefore ind sentence).length < 10

/-! ## Properties of the description-based deduplication -/

/-- The dedup filter only ever drops elements, in order. -/
theorem uniqueAux_sublist (self : List Finding) :
    ∀ (l : List Finding) (i : Nat), (uniqueAux self i l).Sublist l := by
  intro l
  induction l with
  | nil => intro i; simp [uniqueAux]
  | cons g rest ih =>
    intro i
    unfold uniqueAux
    split
    · exact List.Sublist.cons₂ g (ih (i + 1))
    · exact List.Sublist.cons g (ih (i + 1))

/-- Every element kept by the dedup filter sits at the first index of
its own description in the scanned list. -/
theorem mem_uniqueAux (self : List Finding) :
    ∀ (l : List Finding) (i : Nat) (g : Finding), self.drop i = l →
      g ∈ uniqueAux self i l →
      ∃ j, i ≤ j ∧ self[j]? = some g ∧
        self.findIdx (fun h => h.description == g.description) = j := by
  intro l
  induction l with
  | nil => intro i g _ hg; simp [uniqueAux] at hg
  | cons c rest ih =>
    intro i g hdrop hg
    have hi : i < self.length := by
      have := List.length_drop i self
      rw [hdrop] at this
      simp at this
      omega
    have hsplit : self.drop i = self[i] :: self.drop (i + 1) :=
      List.drop_eq_getElem_cons hi
    rw [hdrop] at hsplit
    have hc : c = self[i] := (List.cons.injEq _ _ _ _ ▸ hsplit).1
    have hrest : self.drop (i + 1) = rest := ((List.cons.injEq _ _ _ _ ▸ hsplit).2).symm
    unfold uniqueAux at hg
    split at hg
    · rcases List.mem_cons.mp hg with hgc | hgtail
      · subst hgc
        refine ⟨i, Nat.le_refl i, ?_, by assumption⟩
        rw [hc]
        exact (List.getElem?_eq_getElem hi)
      · obtain ⟨j, hij, hj⟩ := ih (i + 1) g hrest hgtail
        exact ⟨j, by omega, hj⟩
    · obtain ⟨j, hij, hj⟩ := ih (i + 1) g hrest hg
      exact ⟨j, by omega, hj⟩

/-- Distinct kept elements have distinct descriptions. -/
theorem uniqueAux_pairwise (self : List Finding) :
    ∀ (l : List Finding) (i : Nat), self.drop i = l →
      (uniqueAux self i l).Pairwise fun a b => a.description ≠ b.description := by
  intro l
  induction l with
  | nil => intro i _; simp [uniqueAux]
  | cons c rest ih =>
    intro i hdrop
    have hi : i < self.length := by
      have := List.length_drop i self
      rw [hdrop] at this
      simp at this
      omega
    have hsplit : self.drop i = self[i] :: self.drop (i + 1) :=
      List.drop_eq_getElem_cons hi
    rw [hdrop] at hsplit
    have hrest : self.drop (i + 1) = rest := ((List.cons.injEq _ _ _ _ ▸ hsplit).2).symm
    unfold uniqueAux
    split
    next hfound =>
      refine List.Pairwise.cons ?_ (ih (i + 1) hrest)
      intro b hb heq
      obtain ⟨j, hij, _, hfix⟩ := mem_uniqueAux self rest (i + 1) b hrest hb
      have hpred : (fun h : Finding => h.description == c.description) =
          (fun h : Finding => h.description == b.description) := by rw [heq]
      rw [← hpred, hfound] at hfix
      omega
    next _ => exact ih (i + 1) hrest

/-- Every description occurring in the scanned list is represented among
the kept elements. -/
theorem uniqueAux_covers (self : List Finding) :
    ∀ (l : List Finding) (i : Nat), self.drop i = l →
      ∀ g ∈ l, i ≤ self.findIdx (fun h => h.description == g.description) →
      ∃ g' ∈ uniqueAux self i l, g'.description = g.description := by
  intro l
  induction l with
  | nil => intro i _ g hg; simp at hg
  | cons c rest ih =>
    intro i hdrop g hg hge
    have hi : i < self.length := by
      have := List.length_drop i self
      rw [hdrop] at this
      simp at this
      omega
    have hsplit : self.drop i = self[i] :: self.drop (i + 1) :=
      List.drop_eq_getElem_cons hi
    rw [hdrop] at hsplit
    have hc : c = self[i] := (List.cons.injEq _ _ _ _ ▸ hsplit).1
    have hrest : self.drop (i + 1) = rest := ((List.cons.injEq _ _ _ _ ▸ hsplit).2).symm
    rcases List.mem_cons.mp hg with hgc | hgtail
    · subst hgc
      have hple : self.findIdx (fun h => h.description == g.description) ≤ i := by
        by_contra hcon
        have hlt : i < self.findIdx (fun h => h.description == g.description) := by omega
        have := List.not_of_lt_findIdx hlt
        rw [← hc] at this
        simp at this
      have hfi : self.findIdx (fun h => h.description == g.description) = i := by omega
      unfold uniqueAux
      rw [if_pos hfi]
      exact ⟨g, List.mem_cons_self g _, rfl⟩
    · by_cases hcase : self.findIdx (fun h => h.description == g.description) = i
      · have hq : self[self.findIdx (fun h : Finding => h.description == g.description)]?
            = some c := by
          rw [hcase, hc]
          exact List.getElem?_eq_getElem hi
        have hp := List.findIdx_of_getElem?_eq_some hq
        have hdesc : c.description = g.description := by simpa using hp
        have hcfi : self.findIdx (fun h => h.description == c.description) = i := by
          have hpred : (fun h : Finding => h.description == c.description) =
              (fun h : Finding => h.description == g.description) := by rw [hdesc]
          rw [hpred, hcase]
        unfold uniqueAux
        rw [if_pos hcfi]
        exact ⟨c, List.mem_cons_self c _, hdesc⟩
      · have hge' : i + 1 ≤ self.findIdx (fun h => h.description == g.description) := by omega
        obtain ⟨g', hg', hdesc⟩ := ih (i + 1) hrest g hgtail hge'
        unfold uniqueAux
        split
        · exact ⟨g', List.mem_cons_of_mem _ hg', hdesc⟩
        · exact ⟨g', hg', hdesc⟩

/-- C4: the Gap Analyzer's result list has pairwise-distinct
descriptions; it is an order-preserving sublist of the concatenation of
the four detection rules (run in the fixed order context, ambiguity,
output, constraints); every description generated by the rules is
represented; and every kept finding sits at the first index of its
description in that concatenation. -/
theorem c4_dedup_preserves_first_occurrence_order (text : Str) :
    ((analyzeTextForGaps text).gaps.Pairwise fun a b => a.description ≠ b.description) ∧
    (analyzeTextForGaps text).gaps.Sublist (allGaps text) ∧
    (∀ g ∈ allGaps text, ∃ g' ∈ (analyzeTextForGaps text).gaps,
       g'.description = g.description) ∧
    (∀ g' ∈ (analyzeTextForGaps text).gaps, ∃ j, (allGaps text)[j]? = some g' ∧
       (allGaps text).findIdx (fun h => h.description == g'.description) = j) := by
  have hg : (analyzeTextForGaps text).gaps = dedupGaps (allGaps text) := rfl
  rw [hg]
  have h0 : (allGaps text).drop 0 = allGaps text := List.drop_zero _
  refine ⟨uniqueAux_pairwise _ _ 0 h0, uniqueAux_sublist _ _ 0, ?_, ?_⟩
  · intro g hgmem
    exact uniqueAux_covers _ _ 0 h0 g hgmem (Nat.zero_le _)
  · intro g' hg'
    obtain ⟨j, _, hj2, hj3⟩ := mem_uniqueAux _ _ 0 g' h0 hg'
    exact ⟨j, hj2, hj3⟩

/-- Witness for C4 at a concrete input. -/
theorem c4_dedup_preserves_first_occurrence_order_witness :
    ∃ g' ∈ (analyzeTextForGaps (str "good")).gaps,
      g'.description = (ambigFinding (str "good")).description :=
  (c4_dedup_preserves_first_occurrence_order (str "good")).2.2.1
    (ambigFinding (str "good")) (by decide)

/-- Fields of the findings emitted by `findMissingContext`. -/
theorem mem_ctxScan_fields (g : Finding) :
    ∀ (l : List Str) (i : Nat), g ∈ ctxScan i l →
      g.category = str "missing_context" ∧ g.severity = str "medium" := by
  intro l
  induction l with
  | nil => intro i h; simp [ctxScan] at h
  | cons s rest ih =>
    intro i h
    rcases List.mem_append.mp h with h1 | h2
    · simp [ctxPerSentence] at h1
      obtain ⟨ind, _, _, hg⟩ := h1
      subst hg
      exact ⟨rfl, rfl⟩
    · exact ih (i + 1) h2

/-- Fields of the findings emitted by `findAmbiguousRequirements`. -/
theorem mem_findAmbiguous_fields (text : Str) (g : Finding)
    (h : g ∈ findAmbiguousRequirements text) :
    g.category = str "ambiguous_requirement" ∧ g.severity = str "high" := by
  simp [findAmbiguousRequirements] at h
  obtain ⟨ind, _, _, hg⟩ := h
  subst hg
  exact ⟨rfl, rfl⟩

/-- Fields of the findings emitted by `findUnclearOutputs`. -/
theorem mem_findUnclear_fields (text : Str) (g : Finding)
    (h : g ∈ findUnclearOutputs text) :
    g.category = str "unclear_output" ∧ g.severity = str "medium" := by
  simp [findUnclearOutputs] at h
  obtain ⟨ind, _, _, hg⟩ := h
  subst hg
  exact ⟨rfl, rfl⟩

/-- Fields of the findings emitted by `findMissingConstraints`. -/
theorem mem_findConstraints_fields (text : Str) (g : Finding)
    (h : g ∈ findMissingConstraints text) :
    g.category = str "missing_constraints" ∧ g.severity = str "medium" := by
  simp [findMissingConstraints] at h
  obtain ⟨ind, _, _, hg⟩ := h
  subst hg
  exact ⟨rfl, rfl⟩

/-- C10: every finding the Gap Analyzer produces has severity `high`
exactly on category `ambiguous_requirement` and `medium` otherwise;
severity `low` is never produced. -/
theorem c10_severity_never_low (text : Str) :
    ∀ g ∈ (analyzeTextForGaps text).gaps,
      (g.category = str "ambiguous_requirement" → g.severity = str "high") ∧
      (g.category ≠ str "ambiguous_requirement" → g.severity = str "medium") ∧
      g.severity ≠ str "low" := by
  intro g hg
  have hsub : g ∈ allGaps text :=
    (uniqueAux_sublist (allGaps text) (allGaps text) 0).subset hg
  have hfields : (g.category = str "missing_context" ∧ g.severity = str "medium") ∨
      (g.category = str "ambiguous_requirement" ∧ g.severity = str "high") ∨
      (g.category = str "unclear_output" ∧ g.severity = str "medium") ∨
      (g.category = str "missing_constraints" ∧ g.severity = str "medium") := by
    unfold allGaps at hsub
    rcases List.mem_append.mp hsub with h123 | h4
    · rcases List.mem_append.mp h123 with h12 | h3
      · rcases List.mem_append.mp h12 with h1 | h2
        · exact Or.inl (mem_ctxScan_fields g _ 0 h1)
        · exact Or.inr (Or.inl (mem_findAmbiguous_fields text g h2))
      · exact Or.inr (Or.inr (Or.inl (mem_findUnclear_fields text g h3)))
    · exact Or.inr (Or.inr (Or.inr (mem_findConstraints_fields text g h4)))
  rcases hfields with ⟨hc, hs⟩ | ⟨hc, hs⟩ | ⟨hc, hs⟩ | ⟨hc, hs⟩ <;>
    refine ⟨?_, ?_, ?_⟩ <;>
    simp [hc, hs, str]

/-- Witness for C10 at a concrete input. -/
theorem c10_severity_never_low_witness :
    (ambigFinding (str "good")).severity ≠ str "low" :=
  (c10_severity_never_low (str "good") (ambigFinding (str "good")) (by decide)).2.2

/-- C7: on the input `"Make something good"` the analyzer reports the
`ambiguous_requirement` finding for `"good"`, the `unclear_output`
finding for `"something"`, and a score strictly below 100. -/
theorem c7_make_something_good_scenario :
    ambigFinding (str "good") ∈ (analyzeTextForGaps (str "Make something good")).gaps ∧
    outputFinding (str "something") ∈ (analyzeTextForGaps (str "Make something good")).gaps ∧
    (analyzeTextForGaps (str "Make something good")).overall_clarity_score < 100 := by
  decide

/-- C1 (amended): the score equals the clamped closed form
`100 − 15·|gaps| − 10·|high| + bonuses`, where the length bonuses are
keyed to the length of the array produced by the JavaScript split of the
text on runs of whitespace (that array also counts an empty element for
leading and for trailing whitespace), and the result always lies in
`[0, 100]`. -/
theorem c1_clarity_score_formula_and_bounds (text : Str) :
    (analyzeTextForGaps text).overall_clarity_score =
      max 0 (min 100
        (100 - 15 * ((analyzeTextForGaps text).gaps.length : Int)
           - 10 * (((analyzeTextForGaps text).gaps.filter
                      fun g => g.severity == str "high").length : Int)
           + (if (splitRuns jsIsSpace text).length > 20 then 5 else 0)
           + (if (splitRuns jsIsSpace text).length > 50 then 10 else 0))) ∧
    0 ≤ (analyzeTextForGaps text).overall_clarity_score ∧
    (analyzeTextForGaps text).overall_clarity_score ≤ 100 := by
  have hs : (analyzeTextForGaps text).overall_clarity_score =
      calculateClarityScore text (dedupGaps (allGaps text)) := rfl
  have hgaps : (analyzeTextForGaps text).gaps = dedupGaps (allGaps text) := rfl
  rw [hs, hgaps]
  unfold calculateClarityScore
  refine ⟨?_, ?_, ?_⟩
  · by_cases h20 : (splitRuns jsIsSpace text).length > 20 <;>
      by_cases h50 : (splitRuns jsIsSpace text).length > 50 <;>
      simp [h20, h50] <;> ring_nf
  · exact le_max_left 0 _
  · exact max_le (by norm_num) (min_le_left 100 _)


/-- Counterexample for C1 as stated: a text with exactly 20
whitespace-delimited tokens but a trailing space (so the JS split array
has 21 entries) and one medium finding.  The code scores it 90 (length
bonus granted), the claim's formula says 85. -/
theorem c1_counterexample_trailing_space :
    (analyzeTextForGaps (str "d d d d d d d d d d d d d d d d d d d data ")).overall_clarity_score
      ≠ specClarityScore (str "d d d d d d d d d d d d d d d d d d d data ")
          (analyzeTextForGaps (str "d d d d d d d d d d d d d d d d d d d data ")).gaps := by
  decide

/-- C9: with no data/parameter pattern matching, required-input
extraction falls back to exactly the two generic strings, while
optional-input extraction ends with its two fixed generic strings for
every input text. -/
theorem c9_required_fallback_and_optional_suffix :
    extractRequiredInputs (str "no matching patterns") =
      [str "Input text or prompt", str "Context or background information"] ∧
    ∀ text : Str, ∃ l : List Str, extractOptionalInputs text =
      l ++ [str "Additional context", str "Preferences or style guidelines"] := by
  refine ⟨by decide, ?_⟩
  intro text
  refine ⟨matchAll (litSpWordAt (str "optional")) text ++
    (matchAll ifAvailableAt text ++ matchAll (wordSpLitAt (str "(optional)")) text), ?_⟩
  simp [extractOptionalInputs]

/-- C8: task extraction returns the (trimmed) first non-empty sentence
— both when it begins with one of the fixed action verbs and as the
fallback — and on the catalog scenario it returns the full sentence
while `outputs.primary` resolves to `"Catalog"`. -/
theorem c8_task_first_sentence_and_catalog_scenario :
    (∀ (text s : Str) (rest : List Str), sentencesOf text = s :: rest →
       extractTask text = Except.ok (trimStr s)) ∧
    extractTask (str "Generate a product catalog for corrugated boxes with pricing and specs")
      = Except.ok (str "Generate a product catalog for corrugated boxes with pricing and specs") ∧
    (extractOutputs (str "Generate a product catalog for corrugated boxes with pricing and specs")).primary
      = str "Catalog" := by
  refine ⟨?_, rfl, by decide⟩
  intro text s rest h
  unfold extractTask
  rw [h]
  show (if (actionVerbs.any fun verb => ciStartsWith (trimStr s) verb) = true
      then Except.ok (trimStr s) else Except.ok (trimStr s)) = Except.ok (trimStr s)
  exact ite_self _

/-- Witness for C8 at a concrete input whose first sentence does not
start with an action verb. -/
theorem c8_task_first_sentence_and_catalog_scenario_witness :
    extractTask (str "The cat sat. Make it nice.") = Except.ok (str "The cat sat") :=
  c8_task_first_sentence_and_catalog_scenario.1
    (str "The cat sat. Make it nice.") (str "The cat sat") [str " Make it nice"] rfl

/-- C5: conversion either succeeds with a full record or fails with the
message of the exception raised during extraction, never propagating
it, and `processing_time_ms = t1 − t0` is non-negative whenever the
second clock reading is at least the first. -/
theorem c5_convert_total_with_elapsed_time (text : Str) (t0 t1 : Int) (h : t0 ≤ t1) :
    ((∃ d, convertPromptToJson text t0 t1 = ConvertResult.success d (t1 - t0)) ∨
      (∃ e, extractAll text = Except.error e ∧
        convertPromptToJson text t0 t1 = ConvertResult.failure e (t1 - t0))) ∧
    0 ≤ (convertPromptToJson text t0 t1).timeOf := by
  constructor
  · cases hx : extractAll text with
    | ok d => exact Or.inl ⟨d, by simp [convertPromptToJson, hx]⟩
    | error e => exact Or.inr ⟨e, rfl, by simp [convertPromptToJson, hx]⟩
  · cases hx : extractAll text <;> simp [convertPromptToJson, hx, ConvertResult.timeOf] <;> omega

/-- Witness for C5 at a concrete input and clock pair. -/
theorem c5_convert_total_with_elapsed_time_witness :
    0 ≤ (convertPromptToJson (str "Run the tests") 0 3).timeOf :=
  (c5_convert_total_with_elapsed_time (str "Run the tests") 0 3 (by decide)).2

/-- C6: the `data`/`error` parts of conversion do not depend on the
clock readings (only `processing_time_ms` can differ between two runs),
and the Gap Analyzer is a pure function of the text. -/
theorem c6_convert_deterministic_data (text : Str) (t0 t1 u0 u1 : Int) :
    (convertPromptToJson text t0 t1).dataOf = (convertPromptToJson text u0 u1).dataOf ∧
    (convertPromptToJson text t0 t1).errorOf = (convertPromptToJson text u0 u1).errorOf ∧
    analyzeTextForGaps text = analyzeTextForGaps text := by
  refine ⟨?_, ?_, rfl⟩ <;>
    cases hx : extractAll text <;>
    simp [convertPromptToJson, hx, ConvertResult.dataOf, ConvertResult.errorOf]


/-- C3 (amended): `improvements` has exactly one entry per gap category
present in the analysis of the original text (hence at most 4), and an
empty `improvements` list forces `refined_prompt = original_prompt`;
the converse fails (see the counterexample), because the
vague-adjective replacement step can fire without changing the text. -/
theorem c3_improvements_count_and_refined_prompt (text : Str) :
    (refinePrompt text).original_prompt = text ∧
    (refinePrompt text).improvements.length =
      (presentCategories (analyzeTextForGaps text).gaps).length ∧
    (refinePrompt text).improvements.length ≤ 4 ∧
    ((refinePrompt text).improvements = [] →
      (refinePrompt text).refined_prompt = (refinePrompt text).original_prompt) := by
  cases hb1 : (analyzeTextForGaps text).gaps.any fun gap =>
      gap.category == str "missing_context" <;>
  cases hb2 : (analyzeTextForGaps text).gaps.any fun gap =>
      gap.category == str "ambiguous_requirement" <;>
  cases hb3 : (analyzeTextForGaps text).gaps.any fun gap =>
      gap.category == str "unclear_output" <;>
  cases hb4 : (analyzeTextForGaps text).gaps.any fun gap =>
      gap.category == str "missing_constraints" <;>
  simp [refinePrompt, presentCategories, gapCategories, hb1, hb2, hb3, hb4]

/-- Witness for C3 at a concrete input with no gaps. -/
theorem c3_improvements_count_and_refined_prompt_witness :
    (refinePrompt (str "hello")).refined_prompt = (refinePrompt (str "hello")).original_prompt :=
  (c3_improvements_count_and_refined_prompt (str "hello")).2.2.2 (by decide)

/-- Counterexample for C3 as stated: on `"maybe"` the only gap category
is `ambiguous_requirement`, so one improvement is recorded, yet the
replacement step matches no word and the refined prompt equals the
original — refuting `refined_prompt ≠ original_prompt ↔ improvements ≠ []`. -/
theorem c3_counterexample_maybe :
    (refinePrompt (str "maybe")).improvements.length = 1 ∧
    (refinePrompt (str "maybe")).refined_prompt = (refinePrompt (str "maybe")).original_prompt := by
  decide

/-! ## Injectivity of the missing-context description -/


/-- Code of a decimal digit character. -/
theorem digitChar_toNat (d : Nat) (h : d < 10) : (digitChar d).toNat = 48 + d := by
  interval_cases d <;> decide

/-- Parsing the rendered digits of `n` continues the parse with value `n`. -/
theorem parse_natStrAux :
    ∀ (fuel n : Nat) (acc : Str), n ≤ fuel →
      parseDecAux 0 (natStrAux fuel n acc) = parseDecAux n acc := by
  intro fuel
  induction fuel with
  | zero =>
    intro n acc h
    have hn : n = 0 := by omega
    subst hn
    show parseDecAux 0 (digitChar (0 % 10) :: acc) = parseDecAux 0 acc
    show parseDecAux (0 * 10 + ((digitChar (0 % 10)).toNat - 48)) acc = parseDecAux 0 acc
    norm_num [digitChar_toNat]
  | succ fuel ih =>
    intro n acc h
    unfold natStrAux
    split
    next h10 =>
      show parseDecAux (0 * 10 + ((digitChar n).toNat - 48)) acc = parseDecAux n acc
      rw [digitChar_toNat n h10]
      norm_num
    next h10 =>
      have hlt : n / 10 < n := Nat.div_lt_self (by omega) (by omega)
      rw [ih (n / 10) (digitChar (n % 10) :: acc) (by omega)]
      show parseDecAux (n / 10 * 10 + ((digitChar (n % 10)).toNat - 48)) acc = parseDecAux n acc
      rw [digitChar_toNat (n % 10) (by omega)]
      have : n / 10 * 10 + (48 + n % 10 - 48) = n := by omega
      rw [this]

/-- Round trip: parsing the decimal rendering recovers the number. -/
theorem parseDec_natStr (n : Nat) : parseDecAux 0 (natStr n) = n := by
  unfold natStr
  rw [parse_natStrAux n n [] (Nat.le_refl n)]
  rfl

/-- Decimal rendering is injective. -/
theorem natStr_inj (m n : Nat) (h : natStr m = natStr n) : m = n := by
  have hp := congrArg (parseDecAux 0) h
  rwa [parseDec_natStr, parseDec_natStr] at hp

/-- A quote character acts as a unique separator after a quote-free
block: equal concatenations split identically. -/
theorem quote_sep :
    ∀ (x₁ x₂ y₁ y₂ : Str), '"' ∉ x₁ → '"' ∉ x₂ →
      x₁ ++ '"' :: y₁ = x₂ ++ '"' :: y₂ → x₁ = x₂ ∧ y₁ = y₂ := by
  intro x₁
  induction x₁ with
  | nil =>
    intro x₂ y₁ y₂ _ h2 heq
    cases x₂ with
    | nil => simpa using heq
    | cons b bs =>
      simp only [List.nil_append, List.cons_append, List.cons.injEq] at heq
      rw [← heq.1] at h2
      simp at h2
  | cons a as ih =>
    intro x₂ y₁ y₂ h1 h2 heq
    cases x₂ with
    | nil =>
      simp only [List.nil_append, List.cons_append, List.cons.injEq] at heq
      rw [heq.1] at h1
      simp at h1
    | cons b bs =>
      simp only [List.cons_append, List.cons.injEq] at heq
      have h1' : '"' ∉ as := fun hm => h1 (List.mem_cons_of_mem _ hm)
      have h2' : '"' ∉ bs := fun hm => h2 (List.mem_cons_of_mem _ hm)
      obtain ⟨hx, hy⟩ := ih bs y₁ y₂ h1' h2' heq.2
      exact ⟨by rw [heq.1, hx], hy⟩

/-- No context indicator contains a quote character. -/
theorem ctx_indicators_quote_free : ∀ ind ∈ CONTEXT_INDICATORS, '"' ∉ ind := by decide

/-- The missing-context description rearranged so that the quote that
closes the indicator is explicit. -/
theorem ctxFinding_description_shape (ind : Str) (i : Nat) :
    (ctxFinding ind i).description =
      str "Unclear reference to \"" ++
        (ind ++ '"' :: (str " in sentence " ++ natStr (i + 1))) := by
  show str "Unclear reference to \"" ++ ind ++ str "\" in sentence " ++ natStr (i + 1) = _
  rw [show (str "\" in sentence ") = '"' :: str " in sentence " from rfl]
  simp [List.append_assoc]

/-- Two missing-context descriptions agree only for the same indicator
and the same sentence index. -/
theorem ctxFinding_description_inj {ind₁ ind₂ : Str} {i₁ i₂ : Nat}
    (h1 : ind₁ ∈ CONTEXT_INDICATORS) (h2 : ind₂ ∈ CONTEXT_INDICATORS)
    (heq : (ctxFinding ind₁ i₁).description = (ctxFinding ind₂ i₂).description) :
    ind₁ = ind₂ ∧ i₁ = i₂ := by
  rw [ctxFinding_description_shape, ctxFinding_description_shape] at heq
  have heq2 := List.append_cancel_left heq
  obtain ⟨hind, htail⟩ := quote_sep ind₁ ind₂ _ _
    (ctx_indicators_quote_free ind₁ h1) (ctx_indicators_quote_free ind₂ h2) heq2
  have htail2 := List.append_cancel_left htail
  have := natStr_inj _ _ htail2
  exact ⟨hind, by omega⟩

/-- Membership in the per-sentence generator of `findMissingContext`. -/
theorem mem_ctxPerSentence (g : Finding) (i : Nat) (s : Str) :
    g ∈ ctxPerSentence i s ↔
      ∃ ind, ind ∈ CONTEXT_INDICATORS ∧ ctxCondition s ind = true ∧ g = ctxFinding ind i := by
  simp [ctxPerSentence]

/-- Membership in the indexed sentence scan of `findMissingContext`. -/
theorem mem_ctxScan_iff (g : Finding) :
    ∀ (l : List Str) (base : Nat),
      g ∈ ctxScan base l ↔ ∃ j s, l[j]? = some s ∧ g ∈ ctxPerSentence (base + j) s := by
  intro l
  induction l with
  | nil => intro base; simp [ctxScan]
  | cons s rest ih =>
    intro base
    constructor
    · intro h
      rcases List.mem_append.mp h with h1 | h2
      · exact ⟨0, s, by simp, by simpa using h1⟩
      · obtain ⟨j, s', hj, hmem⟩ := (ih (base + 1)).mp h2
        refine ⟨j + 1, s', by simpa using hj, ?_⟩
        have harith : base + 1 + j = base + (j + 1) := by omega
        rwa [harith] at hmem
    · rintro ⟨j, s', hj, hmem⟩
      cases j with
      | zero =>
        simp only [List.getElem?_cons_zero, Option.some.injEq] at hj
        subst hj
        apply List.mem_append_left
        simpa using hmem
      | succ j =>
        simp only [List.getElem?_cons_succ] at hj
        apply List.mem_append_right
        apply (ih (base + 1)).mpr
        refine ⟨j, s', hj, ?_⟩
        have harith : base + 1 + j = base + (j + 1) := by omega
        rwa [← harith] at hmem

/-- C2 (amended): for each sentence (1-based index `i + 1`) and each
context indicator, the `missing_context` finding naming that indicator
and index is emitted exactly when the sentence contains the indicator
case-insensitively and the trimmed prefix of the sentence before the
indicator's first case-sensitive occurrence (the whole trimmed sentence
when the indicator never occurs case-sensitively) is shorter than 10
characters — i.e. when `ctxCondition` holds. -/
theorem c2_missing_context_emission (text : Str) (i : Nat) (s ind : Str)
    (hs : (sentencesOf text)[i]? = some s) (hind : ind ∈ CONTEXT_INDICATORS) :
    (ctxFinding ind i ∈ findMissingContext text ↔ ctxCondition s ind = true) := by
  constructor
  · intro h
    obtain ⟨j, s', hj, hmem⟩ := (mem_ctxScan_iff _ _ 0).mp h
    rw [Nat.zero_add] at hmem
    obtain ⟨ind', hind', hcond', hgeq⟩ := (mem_ctxPerSentence _ _ _).mp hmem
    have hdesc : (ctxFinding ind i).description = (ctxFinding ind' j).description := by
      rw [hgeq]
    obtain ⟨hii, hjj⟩ := ctxFinding_description_inj hind hind' hdesc
    rw [← hii] at hcond'
    rw [← hjj] at hj
    rw [hs] at hj
    have hss : s = s' := by injection hj
    rwa [← hss] at hcond'
  · intro hcond
    apply (mem_ctxScan_iff _ _ 0).mpr
    refine ⟨i, s, hs, ?_⟩
    rw [Nat.zero_add]
    exact (mem_ctxPerSentence _ _ _).mpr ⟨ind, hind, hcond, rfl⟩

/-- Witness for C2 at a concrete input. -/
theorem c2_missing_context_emission_witness :
    ctxFinding (str "it") 0 ∈ findMissingContext (str "it rains") :=
  (c2_missing_context_emission (str "it rains") 0 (str "it rains") (str "it")
    (by decide) (by decide)).mpr (by decide)


/-- Counterexample for C2 as stated: in `"IT WAS DEPLOYED YESTERDAY"`
the indicator `"it"` occurs case-insensitively at offset 0 (so the
claim's condition demands a finding), but the code's case-sensitive
`split` finds no occurrence, takes the whole 25-character sentence as
the prefix, and emits nothing. -/
theorem c2_counterexample_case_mismatch :
    (sentencesOf (str "IT WAS DEPLOYED YESTERDAY"))[0]?
        = some (str "IT WAS DEPLOYED YESTERDAY") ∧
    str "it" ∈ CONTEXT_INDICATORS ∧
    specCtxEmits (str "IT WAS DEPLOYED YESTERDAY") (str "it") = true ∧
    findMissingContext (str "IT WAS DEPLOYED YESTERDAY") = [] := by
  decide
